import Mathlib

/-!
Verification of the refiner-api batch pipeline (src/refiner_api/main.py and
src/refiner_api/classes.py) against its natural-language specification.

The Python code is shallowly embedded as executable Lean definitions:

* a pandas DataFrame becomes the structure `DF` (column names, string cell
  rows, and an integer row-label index);
* `ApiCall.call_api` becomes `call_api`, taking the parsed response table as
  input (the HTTP POST plus `pd.read_json(...).fillna('').astype(str)` step is
  abstracted into a supplied `CallOutcome`: either a connection error or a
  parsed table, which is also what the lxml `XMLSyntaxError` branch leaves
  behind, namely the empty DataFrame);
* `check_batch` becomes `check_batch`, a ten-iteration retry loop over a per
  attempt outcome function, recording attempts made, seconds slept and the
  server index used by each attempt;
* the batch planning loop of `check_chunk` / `check_df` becomes `planBatches`;
* `process_chunk` / `process_data` becomes `process_chunk`, with the round
  robin assignment loop embedded as `rrAssign` and the worker bound
  `min(thread_count, MAX_THREADS)` recorded in the output;
* `get_apis` and `ApiServer.__init__` become `get_apis` / `mkApiServer`;
* `Config.ImmutableDict` and `Config.ImmutableList` become `dictMutate` /
  `listMutate` over explicit operation datatypes.

Python exceptions are modelled with `Except PyErr`.
-/

namespace RefinerApi

/-- Errors raised by the modelled Python code paths. `apiSetupError` carries
the `error` and `description` attributes built by `ApiSetupError.__init__`. -/
inductive PyErr where
  | keyError (field : String)
  | valueError (msg : String)
  | typeError (msg : String)
  | apiSetupError (errName desc : String)
deriving DecidableEq

/-- A pandas DataFrame of strings: column names, rows of cells (each row
aligned with `cols`), and the row-label index (aligned with `rows`). This is
the shape produced by `pd.read_json(...).fillna('').astype(str)`. -/
structure DF where
  cols : List String
  rows : List (List String)
  index : List Nat
deriving DecidableEq, Inhabited

/-- Position of the first column named `c`, as pandas column lookup does. -/
def colIdxAux (c : String) : List String → Option Nat
  | [] => none
  | c2 :: rest => if c2 = c then some 0 else (colIdxAux c rest).map (fun n => n + 1)

/-- Column lookup on a DataFrame. -/
def DF.colIdx (d : DF) (c : String) : Option Nat := colIdxAux c d.cols

/-- Number of columns, i.e. `df.shape[1]`. -/
def DF.nCols (d : DF) : Nat := d.cols.length

/-- The empty DataFrame `pd.DataFrame()`. -/
def DF.empty : DF := ⟨[], [], []⟩

/-- Column read `df[c]`: the series of values of column `c`, or a `KeyError`
when the column does not exist. -/
def DF.getCol (d : DF) (c : String) : Except PyErr (List String) :=
  match d.colIdx c with
  | none => .error (.keyError c)
  | some i => .ok (d.rows.map (fun r => r.getD i ""))

/-- Column write `df[c] = vals` with `vals` aligned to the rows: replaces the
column when it exists, otherwise appends a new column on the right. -/
def DF.setCol (d : DF) (c : String) (vals : List String) : DF :=
  match d.colIdx c with
  | some i => { d with rows := List.zipWith (fun r v => r.set i v) d.rows vals }
  | none => { cols := d.cols ++ [c], rows := List.zipWith (fun r v => r ++ [v]) d.rows vals,
              index := d.index }

/-- Scalar column write `df[c] = v`: every row receives the value `v`. -/
def DF.setColScalar (d : DF) (c : String) (v : String) : DF :=
  d.setCol c (List.replicate d.rows.length v)

/-- Index assignment `df.index = idx`: pandas raises `ValueError` when the new
index length does not match the number of rows. -/
def DF.setIndex (d : DF) (idx : List Nat) : Except PyErr DF :=
  if idx.length = d.rows.length then .ok { d with index := idx }
  else .error (.valueError "Length mismatch")

/-- Well-formedness of the DataFrame model: the index is aligned with the rows
and every row is aligned with the column list. -/
def DF.WF (d : DF) : Prop :=
  d.index.length = d.rows.length ∧ ∀ r ∈ d.rows, r.length = d.cols.length

instance (d : DF) : Decidable d.WF :=
  inferInstanceAs (Decidable (_ ∧ _))

/-- Stand-in for `str(DataFrame)` as used by string formatting inside
`ApiSetupError`: it lists the column names and the cell values (pandas lays
the same data out as a table; the development relies only on the fact that
the text is built from the column names and cells of the frame). -/
def dfRepr (d : DF) : String :=
  String.intercalate " " d.cols ++ "\n" ++
    String.intercalate "\n" (d.rows.map (String.intercalate " "))

/-- Bool test that `pat` is a prefix of the second list. -/
def isPrefixChars : List Char → List Char → Bool
  | [], _ => true
  | _ :: _, [] => false
  | p :: ps, c :: cs => p == c && isPrefixChars ps cs

/-- Bool test that `pat` occurs somewhere in the second list. -/
def strContainsAux (pat : List Char) : List Char → Bool
  | [] => isPrefixChars pat []
  | c :: cs => isPrefixChars pat (c :: cs) || strContainsAux pat cs

/-- Substring test (Python `pat in s`), used to state what an error message
does or does not mention. -/
def strContains (s pat : String) : Bool := strContainsAux pat.data s.data

/-- Python `r.split('.')[0]`: the prefix of the string before the first dot. -/
def intPart (s : String) : String := ⟨s.data.takeWhile (fun ch => ch ≠ '.')⟩

/-- Python `s[-n:]`: the last `n` characters of a string (the whole string
when it is shorter than `n`). -/
def strTakeRight (n : Nat) (s : String) : String := ⟨s.data.drop (s.data.length - n)⟩

/-- The UDPRN lambda of classes.py line 203:
`('00000000' + r.split('.')[0])[-8:]`. -/
def norm8 (r : String) : String := strTakeRight 8 ("00000000" ++ intPart r)

/-- The UPRN lambda of classes.py line 204:
`('000000000000' + r.split('.')[0])[-12:]`. -/
def norm12 (r : String) : String := strTakeRight 12 ("000000000000" ++ intPart r)

/-- The Closeness lambda of classes.py line 205: `r.split('.')[0]`. -/
def normScore (r : String) : String := intPart r

/-- Left-pad a string with zeros to width `n` (specification wording). -/
def padZeros (n : Nat) (s : String) : String :=
  ⟨List.replicate (n - s.data.length) '0' ++ s.data⟩

/-- The `except KeyError` handler of `ApiCall.call_api`: a `KeyError` from a
column read is re-raised as `ApiSetupError(['api_key', batch, self.data])`,
whose `err_dict` entry names it "API Response Error" and formats the
description from the current value of `batch` and the raw payload. -/
def keyErrToSetup (cur : DF) (payload : String) :
    Except PyErr (List String) → Except PyErr (List String)
  | .error (.keyError _) =>
      .error (.apiSetupError "API Response Error"
        ("Missing data fields: \"" ++ dfRepr cur ++ "\"\n" ++ payload))
  | e => e

/-- `ApiCall.call_api` (classes.py lines 182-222) given the parsed response
table `t`. With more than 2 columns the UDPRN, UPRN and Closeness columns are
normalized in turn (a missing column raises through `keyErrToSetup`);
otherwise every requested output field is blanked and sentinel columns are
written. Finally `batch.index = self.index` is performed, which raises
`ValueError` when the row count does not match the stored batch index. -/
def call_api (outFields : List String) (payload : String) (idx : List Nat) (t : DF) :
    Except PyErr DF :=
  let res : Except PyErr DF :=
    if 2 < t.nCols then
      match keyErrToSetup t payload (t.getCol "UDPRN") with
      | .error e => .error e
      | .ok u =>
        let b1 := t.setCol "UDPRN" (u.map norm8)
        match keyErrToSetup b1 payload (b1.getCol "UPRN") with
        | .error e => .error e
        | .ok w =>
          let b2 := b1.setCol "UPRN" (w.map norm12)
          match keyErrToSetup b2 payload (b2.getCol "Closeness") with
          | .error e => .error e
          | .ok c => .ok (b2.setCol "Closeness" (c.map normScore))
    else
      .ok ((((outFields.foldl (fun b f => b.setColScalar f "") t).setColScalar
        "UDPRN" "00000000").setColScalar "UPRN" "000000000000").setColScalar "Closeness" "0")
  match res with
  | .error e => .error e
  | .ok batch => batch.setIndex idx

/-- Outcome of one attempt of `requests.post` plus response parsing: either a
`ConnectionError` or a parsed table (the `XMLSyntaxError` branch leaves the
empty DataFrame, i.e. `parsed DF.empty`). -/
inductive CallOutcome where
  | connError
  | parsed (t : DF)
deriving DecidableEq

/-- `ApiCall.get_server`: with `switch` the server id is advanced with
wraparound over the `K` servers; without it the current id is returned. The
codebase only ever calls it with the default `switch=False`. -/
def getServer (K sid : Nat) (switch : Bool) : Nat :=
  if switch then (if K ≤ sid + 1 then 0 else sid + 1) else sid

/-- `ApiServer.sleep_timer`: seconds waited before the first retry. -/
def sleepTimer0 : Nat := 1

/-- `ApiServer.sleep_timer_increment`: seconds added to the wait each time. -/
def sleepTimerIncrement : Nat := 3

/-- Result of a completed `check_batch` call: the returned DataFrame, the
number of `call_api` attempts made, the total seconds slept, and the server
index used by each attempt (via `get_server`). -/
structure CBOut where
  df : DF
  attempts : Nat
  slept : Nat
  servers : List Nat
deriving DecidableEq

/-- The `while retry_count < 10` loop of `check_batch` (main.py lines 29-42).
`fuel` counts the remaining iterations, maintaining `fuel = 10 - retryCount`;
`behavior n` is the outcome of the `n`-th `call_api` attempt (0-based). On a
`ConnectionError` the loop sleeps `sleepTimer` seconds and increments the
timer by 3; on a parsed response it returns the `call_api` result (a raised
non-ConnectionError exception propagates); after ten attempts it returns the
initial `result = pd.DataFrame()` without raising. -/
def checkBatchLoop (outF : List String) (payload : String) (idx : List Nat) (K sid : Nat)
    (behavior : Nat → CallOutcome) :
    Nat → Nat → Nat → Nat → List Nat → DF → Except PyErr CBOut
  | 0, retryCount, _, slept, servers, result => .ok ⟨result, retryCount, slept, servers⟩
  | fuel + 1, retryCount, sleepTimer, slept, servers, result =>
    match behavior retryCount with
    | .connError =>
        checkBatchLoop outF payload idx K sid behavior fuel (retryCount + 1)
          (sleepTimer + sleepTimerIncrement) (slept + sleepTimer)
          (servers ++ [getServer K sid false]) result
    | .parsed t =>
        match call_api outF payload idx t with
        | .ok df => .ok ⟨df, retryCount + 1, slept, servers ++ [getServer K sid false]⟩
        | .error e => .error e

/-- `check_batch` (main.py lines 22-43): up to ten attempts against the same
server `sid`, starting from a 1 second sleep timer and the empty result. -/
def check_batch (outF : List String) (payload : String) (idx : List Nat) (K sid : Nat)
    (behavior : Nat → CallOutcome) : Except PyErr CBOut :=
  checkBatchLoop outF payload idx K sid behavior 10 0 sleepTimer0 0 [] DF.empty

/-- One planned batch: the newline-joined request payload built from the
`api` column of the slice, and the original index labels of the slice
(`['\n'.join(df_slice['api']), df_slice.index]` in main.py line 147). -/
structure Batch where
  payload : String
  index : List Nat
deriving DecidableEq, Inhabited

/-- Build the batch entry for one contiguous slice of (index, api) rows. -/
def mkBatch (slice : List (Nat × String)) : Batch :=
  ⟨String.intercalate "\n" (slice.map Prod.snd), slice.map Prod.fst⟩

/-- The planning loop body (main.py lines 143-149): peel off the first `B`
rows as one batch and continue on the rest. `fuel` bounds the iterations by
the row count, which suffices for `B ≥ 1` (for `B = 0` the source loops
forever; `planBatches` guards that case). -/
def planBatchesGo (B : Nat) : Nat → List (Nat × String) → List Batch
  | 0, _ => []
  | _, [] => []
  | fuel + 1, r :: rest =>
      mkBatch ((r :: rest).take B) :: planBatchesGo B fuel ((r :: rest).drop B)

/-- The `while first_row < last_row` planning loop: slice the dataset into
contiguous batches of `ini.api_batch_size` rows. -/
def planBatches (B : Nat) (rows : List (Nat × String)) : List Batch :=
  if B = 0 then [] else planBatchesGo B rows.length rows

/-- The nested round robin assignment loop of `process_chunk` (main.py lines
103-112): batches are popped from the front and paired with server ids
`s_id = 0, 1, ..., K-1`, restarting at 0 when the inner loop exhausts the
servers. For an empty pool the source would loop forever; that case is
guarded off here and excluded by hypothesis in the theorems. -/
def rrAssign {α : Type} (K : Nat) (sId : Nat) : List α → List (α × Nat)
  | [] => []
  | b :: rest =>
      if K = 0 then []
      else if sId < K then (b, sId) :: rrAssign K (sId + 1) rest
      else (b, 0) :: rrAssign K 1 rest

/-- The `proc_list` built by `process_chunk` before the executor starts:
every enumerated batch paired with its round robin server id. -/
def dispatchPlan (K : Nat) (batches : List Batch) : List ((Nat × Batch) × Nat) :=
  rrAssign K 0 batches.enum

/-- `min(thread_count, MAX_THREADS)` with `MAX_THREADS = 30` (main.py lines
114-115): the worker pool bound handed to `ThreadPoolExecutor`. -/
def workerBound (threadCount : Nat) : Nat := min threadCount 30

/-- `pd.concat(process_results, ignore_index=False)`: raises `ValueError` on
an empty list; otherwise concatenates rows and index labels, with the column
set being the union of the column lists in order of first appearance (cells
of columns absent from a frame are filled; pandas uses NaN there, a detail no
claim inspects). -/
def pdConcat (dfs : List DF) : Except PyErr DF :=
  match dfs with
  | [] => .error (.valueError "No objects to concatenate")
  | _ =>
    let allCols := dfs.foldl (fun acc d => acc ++ d.cols.filter (fun c => !acc.contains c)) []
    .ok { cols := allCols,
          rows := (dfs.map (fun d => d.rows.map (fun r =>
            allCols.map (fun c =>
              match d.colIdx c with
              | some i => r.getD i ""
              | none => "")))).flatten,
          index := (dfs.map (fun d => d.index)).flatten }

/-- Result of `process_chunk`: the concatenated DataFrame, the sequence of
(batch position, server id) units of work in submission order, and the
worker pool bound (`none` in the serial branch, which uses no pool). -/
structure PCOut where
  df : DF
  calls : List (Nat × Nat)
  workerBound2 : Option Nat
deriving DecidableEq

/-- `process_chunk` / `process_data` (main.py lines 91-128 and 199-232, which
are verbatim duplicates): with more than one server or the multi-thread flag,
batches are assigned round robin and run under a worker pool bounded by
`min(thread_count, 30)` (a zero batch count makes `ThreadPoolExecutor` raise
`ValueError`); otherwise batches run serially, in planning order, against
server 0. Either way the per-batch results are concatenated with `pd.concat`.
`behavior i` gives the attempt outcomes of batch `i`. -/
def process_chunk (K : Nat) (mt : Bool) (outF : List String)
    (behavior : Nat → Nat → CallOutcome) (batches : List Batch) : Except PyErr PCOut :=
  if 1 < K ∨ mt = true then
    if batches.length = 0 then .error (.valueError "max_workers must be greater than 0")
    else
      match (dispatchPlan K batches).mapM (fun u =>
          check_batch outF u.1.2.payload u.1.2.index K u.2 (behavior u.1.1)) with
      | .error e => .error e
      | .ok outs =>
        match pdConcat (outs.map (fun o => o.df)) with
        | .error e => .error e
        | .ok df => .ok ⟨df, (dispatchPlan K batches).map (fun u => (u.1.1, u.2)),
            some (workerBound batches.length)⟩
  else
    match batches.enum.mapM (fun u =>
        check_batch outF u.2.payload u.2.index K 0 (behavior u.1)) with
    | .error e => .error e
    | .ok outs =>
      match pdConcat (outs.map (fun o => o.df)) with
      | .error e => .error e
      | .ok df => .ok ⟨df, batches.enum.map (fun u => (u.1, 0)), none⟩

/-- `check_chunk` / `check_df`: plan the batches of the chunk, then hand them
to `process_chunk`. This is the pipeline body shared by `check_addresses` and
`check_data_frame` (their inner functions are verbatim duplicates); `rows`
carries each row's original index label and prepared `api` string. -/
def check_chunk (B K : Nat) (mt : Bool) (outF : List String)
    (behavior : Nat → Nat → CallOutcome) (rows : List (Nat × String)) : Except PyErr PCOut :=
  process_chunk K mt outF behavior (planBatches B rows)

/-- Configuration of one server as far as pool construction observes it: its
name and the result string of the startup verification `check_api` (only
"Working" means healthy). -/
structure ServerInfo where
  name : String
  checkResult : String
deriving DecidableEq

/-- A constructed ApiServer as far as the pool observes it. -/
structure ApiServerM where
  name : String
  online : Bool
deriving DecidableEq

/-- `ApiServer.__init__` (classes.py lines 50-84): after `check_api`, any
result other than "Working" sets `online = False` and then immediately raises
`ApiSetupError(['API Settings Error', init_result])`, so a constructed server
object is always online. -/
def mkApiServer (si : ServerInfo) : Except PyErr ApiServerM :=
  if si.checkResult = "Working" then .ok ⟨si.name, true⟩
  else .error (.apiSetupError "API Settings Error" si.checkResult)

/-- `get_apis` (main.py lines 9-19): construct each server in turn (an
exception from the constructor propagates and aborts the loop) and append the
online ones. -/
def get_apis (infos : List ServerInfo) : Except PyErr (List ApiServerM) :=
  infos.foldlM (fun acc si =>
    match mkApiServer si with
    | .error e => .error e
    | .ok s => .ok (if s.online then acc ++ [s] else acc)) []

/-- The mutation methods overridden by `Config.ImmutableDict` (classes.py
lines 230-250). -/
inductive DictOp (κ ν : Type) where
  | setitem (k : κ) (v : ν)
  | delitem (k : κ)
  | clear
  | update (kvs : List (κ × ν))
  | pop (k : κ)
  | popitem
  | setdefault (k : κ) (v : ν)

/-- Applying a mutation method to a `Config.ImmutableDict` with contents `d`:
every override raises `TypeError` with its message, so no successor contents
ever exist. -/
def dictMutate {κ ν : Type} (_d : List (κ × ν)) :
    DictOp κ ν → Except PyErr (List (κ × ν))
  | .setitem _ _ => .error (.typeError "This dictionary is immutable and cannot be changed.")
  | .delitem _ => .error (.typeError "This dictionary is immutable and cannot be changed.")
  | .clear => .error (.typeError "This dictionary is immutable and cannot be cleared.")
  | .update _ => .error (.typeError "This dictionary is immutable and cannot be updated.")
  | .pop _ => .error (.typeError "This dictionary is immutable and cannot be changed.")
  | .popitem => .error (.typeError "This dictionary is immutable and cannot be changed.")
  | .setdefault _ _ => .error (.typeError "This dictionary is immutable and cannot be changed.")

/-- The mutation methods overridden by `Config.ImmutableList` (classes.py
lines 252-275). -/
inductive ListOp (α : Type) where
  | setitem (i : Nat) (v : α)
  | delitem (i : Nat)
  | append (v : α)
  | extend (l : List α)
  | insert (i : Nat) (v : α)
  | remove (v : α)
  | pop (i : Int)
  | clear

/-- Applying a mutation method to a `Config.ImmutableList` with contents `l`:
every override raises `TypeError` with its message. -/
def listMutate {α : Type} (_l : List α) : ListOp α → Except PyErr (List α)
  | .setitem _ _ => .error (.typeError "This list is immutable and cannot be changed.")
  | .delitem _ => .error (.typeError "This list is immutable and cannot be deleted.")
  | .append _ => .error (.typeError "This list is immutable and cannot be changed.")
  | .extend _ => .error (.typeError "This list is immutable and cannot be extended.")
  | .insert _ _ => .error (.typeError "This list is immutable and cannot be changed.")
  | .remove _ => .error (.typeError "This list is immutable and cannot be changed.")
  | .pop _ => .error (.typeError "This list is immutable and cannot be changed.")
  | .clear => .error (.typeError "This list is immutable and cannot be cleared.")

/-- Run a sequence of attempted mutations against an immutable list (such as
`Config._API_SERVERS`, the value behind the `Config.api_servers` property),
keeping the previous contents whenever an operation raises. -/
def listTryOps {α : Type} (l : List α) (ops : List (ListOp α)) : List α :=
  ops.foldl (fun s op =>
    match listMutate s op with
    | .ok t => t
    | .error _ => s) l

/-- Run a sequence of attempted mutations against an immutable dict (such as
the `Config.__APP_SETTINGS` store), keeping the previous contents whenever an
operation raises. -/
def dictTryOps {κ ν : Type} (d : List (κ × ν)) (ops : List (DictOp κ ν)) : List (κ × ν) :=
  ops.foldl (fun s op =>
    match dictMutate s op with
    | .ok t => t
    | .error _ => s) d

/-! ### List helper lemmas -/

lemma getD_set_self {α : Type} (l : List α) (i : Nat) (v d : α) (h : i < l.length) :
    (l.set i v).getD i d = v := by
  induction l generalizing i with
  | nil => simp at h
  | cons a t ih =>
    cases i with
    | zero => rfl
    | succ n => exact ih n (by simpa using h)

lemma getD_set_ne {α : Type} (l : List α) (i j : Nat) (v d : α) (hne : i ≠ j) :
    (l.set i v).getD j d = l.getD j d := by
  induction l generalizing i j with
  | nil => rfl
  | cons a t ih =>
    cases i with
    | zero =>
      cases j with
      | zero => exact absurd rfl hne
      | succ m => rfl
    | succ n =>
      cases j with
      | zero => rfl
      | succ m => exact ih n m (by omega)

lemma getD_append_left {α : Type} (l l2 : List α) (j : Nat) (d : α) (h : j < l.length) :
    (l ++ l2).getD j d = l.getD j d := by
  induction l generalizing j with
  | nil => simp at h
  | cons a t ih =>
    cases j with
    | zero => rfl
    | succ n => exact ih n (by simpa using h)

lemma getD_append_length {α : Type} (l : List α) (v d : α) :
    (l ++ [v]).getD l.length d = v := by
  induction l with
  | nil => rfl
  | cons a t ih => exact ih

lemma drop_replicate {α : Type} (a : α) (n : Nat) :
    ∀ m, (List.replicate m a).drop n = List.replicate (m - n) a := by
  induction n with
  | zero => intro m; rfl
  | succ k ih =>
    intro m
    cases m with
    | zero => simp
    | succ m2 =>
      simp only [List.replicate_succ, List.drop_succ_cons, Nat.succ_sub_succ]
      exact ih m2

/-! ### Lemmas about column lookup -/

lemma colIdxAux_lt_length {c : String} : ∀ {cs : List String} {i : Nat},
    colIdxAux c cs = some i → i < cs.length := by
  intro cs
  induction cs with
  | nil => intro i h; simp [colIdxAux] at h
  | cons a t ih =>
    intro i h
    by_cases ha : a = c
    · simp only [colIdxAux, if_pos ha, Option.some.injEq] at h
      subst h
      simp
    · simp only [colIdxAux, if_neg ha] at h
      rcases Option.map_eq_some'.mp h with ⟨j, hj, hji⟩
      have := ih hj
      simp only [List.length_cons]
      omega

lemma colIdxAux_getD {c : String} : ∀ {cs : List String} {i : Nat},
    colIdxAux c cs = some i → cs.getD i "" = c := by
  intro cs
  induction cs with
  | nil => intro i h; simp [colIdxAux] at h
  | cons a t ih =>
    intro i h
    by_cases ha : a = c
    · simp only [colIdxAux, if_pos ha, Option.some.injEq] at h
      subst h
      simp [ha]
    · simp only [colIdxAux, if_neg ha] at h
      rcases Option.map_eq_some'.mp h with ⟨j, hj, hji⟩
      subst hji
      simpa using ih hj

lemma colIdxAux_append_some {c c2 : String} : ∀ {cs : List String} {i : Nat},
    colIdxAux c cs = some i → colIdxAux c (cs ++ [c2]) = some i := by
  intro cs
  induction cs with
  | nil => intro i h; simp [colIdxAux] at h
  | cons a t ih =>
    intro i h
    by_cases ha : a = c
    · simp only [colIdxAux, if_pos ha, Option.some.injEq] at h
      simp only [List.cons_append, colIdxAux, if_pos ha, Option.some.injEq]
      exact h
    · simp only [colIdxAux, if_neg ha] at h
      rcases Option.map_eq_some'.mp h with ⟨j, hj, hji⟩
      simp only [List.cons_append, colIdxAux, if_neg ha, List.append_eq, ih hj,
        Option.map_some', Option.some.injEq]
      exact hji

lemma colIdxAux_append_none_ne {c c2 : String} (hne : c ≠ c2) : ∀ {cs : List String},
    colIdxAux c cs = none → colIdxAux c (cs ++ [c2]) = none := by
  intro cs
  induction cs with
  | nil =>
    intro _
    simp [colIdxAux, Ne.symm hne]
  | cons a t ih =>
    intro h
    by_cases ha : a = c
    · simp [colIdxAux, if_pos ha] at h
    · simp only [colIdxAux, if_neg ha, Option.map_eq_none'] at h
      simp only [List.cons_append, colIdxAux, if_neg ha, List.append_eq, ih h,
        Option.map_none']

lemma colIdxAux_append_none_eq {c : String} : ∀ {cs : List String},
    colIdxAux c cs = none → colIdxAux c (cs ++ [c]) = some cs.length := by
  intro cs
  induction cs with
  | nil => intro _; simp [colIdxAux]
  | cons a t ih =>
    intro h
    by_cases ha : a = c
    · simp [colIdxAux, if_pos ha] at h
    · simp only [colIdxAux, if_neg ha, Option.map_eq_none'] at h
      simp only [List.cons_append, colIdxAux, if_neg ha, List.append_eq, ih h,
        Option.map_some', List.length_cons]

/-! ### Lemmas about the zipWith forms used by DF.setCol -/

lemma zip_set_getCol {i : Nat} {d : String} : ∀ (rows : List (List String)) (vals : List String),
    vals.length = rows.length → (∀ r ∈ rows, i < r.length) →
    (List.zipWith (fun r v => r.set i v) rows vals).map (fun r => r.getD i d) = vals := by
  intro rows
  induction rows with
  | nil =>
    intro vals hlen _
    cases vals with
    | nil => rfl
    | cons a t => simp at hlen
  | cons r rs ih =>
    intro vals hlen hmem
    cases vals with
    | nil => simp at hlen
    | cons v vs =>
      simp only [List.zipWith_cons_cons, List.map_cons]
      rw [getD_set_self r i v d (hmem r (by simp)),
        ih vs (by simpa using hlen) (fun r2 h2 => hmem r2 (by simp [h2]))]

lemma zip_append_getCol {n : Nat} {d : String} : ∀ (rows : List (List String)) (vals : List String),
    vals.length = rows.length → (∀ r ∈ rows, r.length = n) →
    (List.zipWith (fun r v => r ++ [v]) rows vals).map (fun r => r.getD n d) = vals := by
  intro rows
  induction rows with
  | nil =>
    intro vals hlen _
    cases vals with
    | nil => rfl
    | cons a t => simp at hlen
  | cons r rs ih =>
    intro vals hlen hmem
    cases vals with
    | nil => simp at hlen
    | cons v vs =>
      simp only [List.zipWith_cons_cons, List.map_cons]
      have hr : r.length = n := hmem r (by simp)
      have h1 : (r ++ [v]).getD n d = v := by
        rw [← hr]
        exact getD_append_length r v d
      rw [h1, ih vs (by simpa using hlen) (fun r2 h2 => hmem r2 (by simp [h2]))]

lemma zip_set_getCol_ne {i j : Nat} {d : String} (hne : i ≠ j) :
    ∀ (rows : List (List String)) (vals : List String), vals.length = rows.length →
    (List.zipWith (fun r v => r.set i v) rows vals).map (fun r => r.getD j d) =
      rows.map (fun r => r.getD j d) := by
  intro rows
  induction rows with
  | nil => intro vals _; rfl
  | cons r rs ih =>
    intro vals hlen
    cases vals with
    | nil => simp at hlen
    | cons v vs =>
      simp only [List.zipWith_cons_cons, List.map_cons]
      rw [getD_set_ne r i j v d hne, ih vs (by simpa using hlen)]

lemma zip_append_getCol_lt {n j : Nat} {d : String} (hj : j < n) :
    ∀ (rows : List (List String)) (vals : List String), vals.length = rows.length →
    (∀ r ∈ rows, r.length = n) →
    (List.zipWith (fun r v => r ++ [v]) rows vals).map (fun r => r.getD j d) =
      rows.map (fun r => r.getD j d) := by
  intro rows
  induction rows with
  | nil => intro vals _ _; rfl
  | cons r rs ih =>
    intro vals hlen hmem
    cases vals with
    | nil => simp at hlen
    | cons v vs =>
      simp only [List.zipWith_cons_cons, List.map_cons]
      rw [getD_append_left r [v] j d (by rw [hmem r (by simp)]; exact hj),
        ih vs (by simpa using hlen) (fun r2 h2 => hmem r2 (by simp [h2]))]

/-! ### DF lemmas -/

lemma DF.rows_length_setCol (d : DF) (c : String) (vals : List String)
    (h : vals.length = d.rows.length) : (d.setCol c vals).rows.length = d.rows.length := by
  unfold DF.setCol
  cases hc : d.colIdx c with
  | some i => simp [List.length_zipWith, h]
  | none => simp [List.length_zipWith, h]

lemma DF.index_setCol (d : DF) (c : String) (vals : List String) :
    (d.setCol c vals).index = d.index := by
  unfold DF.setCol
  cases hc : d.colIdx c <;> simp

lemma DF.WF_setCol (d : DF) (c : String) (vals : List String)
    (hwf : d.WF) (h : vals.length = d.rows.length) : (d.setCol c vals).WF := by
  obtain ⟨hidx, hrows⟩ := hwf
  unfold DF.setCol
  cases hc : d.colIdx c with
  | some i =>
    refine ⟨by simpa [List.length_zipWith, h] using hidx, ?_⟩
    intro r hr
    simp only [List.mem_iff_get?] at hr
    obtain ⟨k, hk⟩ := hr
    rcases (List.get?_zipWith_eq_some _ _ _ _ _).mp hk with ⟨r0, v0, hr0, _, rfl⟩
    simpa using hrows r0 (List.get?_mem hr0)
  | none =>
    refine ⟨by simpa [List.length_zipWith, h] using hidx, ?_⟩
    intro r hr
    simp only [List.mem_iff_get?] at hr
    obtain ⟨k, hk⟩ := hr
    rcases (List.get?_zipWith_eq_some _ _ _ _ _).mp hk with ⟨r0, v0, hr0, _, rfl⟩
    simp [hrows r0 (List.get?_mem hr0)]

lemma DF.getCol_setCol_self (d : DF) (c : String) (vals : List String)
    (hwf : d.WF) (h : vals.length = d.rows.length) :
    (d.setCol c vals).getCol c = .ok vals := by
  obtain ⟨_, hrows⟩ := hwf
  unfold DF.setCol DF.getCol DF.colIdx
  cases hc : colIdxAux c d.cols with
  | some i =>
    have hlt : i < d.cols.length := colIdxAux_lt_length hc
    simp only [hc]
    rw [zip_set_getCol d.rows vals h (fun r hr => by rw [hrows r hr]; exact hlt)]
  | none =>
    simp only [hc, colIdxAux_append_none_eq hc]
    rw [zip_append_getCol d.rows vals h hrows]

lemma DF.getCol_setCol_ne (d : DF) (c c2 : String) (vals : List String)
    (hwf : d.WF) (h : vals.length = d.rows.length) (hne : c2 ≠ c) :
    (d.setCol c vals).getCol c2 = d.getCol c2 := by
  obtain ⟨_, hrows⟩ := hwf
  unfold DF.setCol DF.getCol DF.colIdx
  cases hc : colIdxAux c d.cols with
  | some i =>
    simp only [hc]
    cases hc2 : colIdxAux c2 d.cols with
    | none => simp [hc2]
    | some j =>
      have hij : i ≠ j := by
        intro hij
        subst hij
        have e1 := colIdxAux_getD hc
        have e2 := colIdxAux_getD hc2
        exact hne (e2 ▸ e1 ▸ rfl)
      simp only [hc2]
      rw [zip_set_getCol_ne hij d.rows vals h]
  | none =>
    simp only [hc]
    cases hc2 : colIdxAux c2 d.cols with
    | none =>
      simp [colIdxAux_append_none_ne hne hc2]
    | some j =>
      have hjlt : j < d.cols.length := colIdxAux_lt_length hc2
      simp only [colIdxAux_append_some hc2]
      rw [zip_append_getCol_lt hjlt d.rows vals h hrows]

lemma DF.rows_length_setColScalar (d : DF) (c v : String) :
    (d.setColScalar c v).rows.length = d.rows.length :=
  DF.rows_length_setCol d c _ (by simp)

lemma DF.index_setColScalar (d : DF) (c v : String) :
    (d.setColScalar c v).index = d.index :=
  DF.index_setCol d c _

lemma DF.WF_setColScalar (d : DF) (c v : String) (hwf : d.WF) : (d.setColScalar c v).WF :=
  DF.WF_setCol d c _ hwf (by simp)

lemma DF.getCol_setColScalar_self (d : DF) (c v : String) (hwf : d.WF) :
    (d.setColScalar c v).getCol c = .ok (List.replicate d.rows.length v) :=
  DF.getCol_setCol_self d c _ hwf (by simp)

lemma DF.getCol_setColScalar_ne (d : DF) (c c2 v : String) (hwf : d.WF) (hne : c2 ≠ c) :
    (d.setColScalar c v).getCol c2 = d.getCol c2 :=
  DF.getCol_setCol_ne d c c2 _ hwf (by simp) hne

lemma blankFold_WF (outF : List String) :
    ∀ (d : DF), d.WF → (outF.foldl (fun b f => b.setColScalar f "") d).WF := by
  induction outF with
  | nil => intro d h; exact h
  | cons f fs ih =>
    intro d h
    exact ih _ (DF.WF_setColScalar d f "" h)

lemma blankFold_rows_length (outF : List String) :
    ∀ (d : DF), (outF.foldl (fun b f => b.setColScalar f "") d).rows.length = d.rows.length := by
  induction outF with
  | nil => intro d; rfl
  | cons f fs ih =>
    intro d
    simp only [List.foldl_cons]
    rw [ih (d.setColScalar f "")]
    exact DF.rows_length_setColScalar d f ""

lemma blankFold_index (outF : List String) :
    ∀ (d : DF), (outF.foldl (fun b f => b.setColScalar f "") d).index = d.index := by
  induction outF with
  | nil => intro d; rfl
  | cons f fs ih =>
    intro d
    simp only [List.foldl_cons]
    rw [ih (d.setColScalar f "")]
    exact DF.index_setColScalar d f ""

/-! ### call_api lemmas -/

lemma DF.getCol_mk_index (cols : List String) (rows : List (List String))
    (i1 i2 : List Nat) (c : String) :
    (DF.mk cols rows i1).getCol c = (DF.mk cols rows i2).getCol c := rfl

/-- Whatever branch `call_api` takes, a successful return went through
`batch.index = self.index`, so the returned frame carries the batch index. -/
lemma call_api_ok_index (outFields : List String) (payload : String) (idx : List Nat)
    (t : DF) (d : DF) (h : call_api outFields payload idx t = .ok d) : d.index = idx := by
  unfold call_api at h
  set res : Except PyErr DF :=
    if 2 < t.nCols then
      match keyErrToSetup t payload (t.getCol "UDPRN") with
      | .error e => .error e
      | .ok u =>
        let b1 := t.setCol "UDPRN" (u.map norm8)
        match keyErrToSetup b1 payload (b1.getCol "UPRN") with
        | .error e => .error e
        | .ok w =>
          let b2 := b1.setCol "UPRN" (w.map norm12)
          match keyErrToSetup b2 payload (b2.getCol "Closeness") with
          | .error e => .error e
          | .ok c => .ok (b2.setCol "Closeness" (c.map normScore))
    else
      .ok ((((outFields.foldl (fun b f => b.setColScalar f "") t).setColScalar
        "UDPRN" "00000000").setColScalar "UPRN" "000000000000").setColScalar "Closeness" "0")
    with hres
  clear_value res
  cases res with
  | error e => simp at h
  | ok batch =>
    simp only [DF.setIndex] at h
    by_cases hl : idx.length = batch.rows.length
    · rw [if_pos hl] at h
      cases h
      rfl
    · rw [if_neg hl] at h
      simp at h

/-- The degraded branch of `call_api` (fewer than 3 columns): the result keeps
the parsed row count, so it succeeds exactly when the parsed table already had
as many rows as the batch, and then every row carries the sentinel values. -/
lemma call_api_short (outF : List String) (payload : String) (idx : List Nat) (t : DF)
    (hwf : t.WF) (hc : t.nCols ≤ 2) (hlen : t.rows.length = idx.length) :
    ∃ d, call_api outF payload idx t = .ok d ∧ d.index = idx ∧
      d.rows.length = idx.length ∧
      d.getCol "Closeness" = .ok (List.replicate idx.length "0") ∧
      d.getCol "UDPRN" = .ok (List.replicate idx.length "00000000") ∧
      d.getCol "UPRN" = .ok (List.replicate idx.length "000000000000") := by
  have hb0wf := blankFold_WF outF t hwf
  have hb0len := blankFold_rows_length outF t
  set b0 := outF.foldl (fun b f => b.setColScalar f "") t with hb0
  set b1 := b0.setColScalar "UDPRN" "00000000" with hb1
  set b2 := b1.setColScalar "UPRN" "000000000000" with hb2
  set b3 := b2.setColScalar "Closeness" "0" with hb3
  have hb1wf : b1.WF := DF.WF_setColScalar b0 _ _ hb0wf
  have hb2wf : b2.WF := DF.WF_setColScalar b1 _ _ hb1wf
  have hb1len : b1.rows.length = t.rows.length := by
    rw [hb1, DF.rows_length_setColScalar, hb0len]
  have hb2len : b2.rows.length = t.rows.length := by
    rw [hb2, DF.rows_length_setColScalar, hb1len]
  have hb3len : b3.rows.length = t.rows.length := by
    rw [hb3, DF.rows_length_setColScalar, hb2len]
  have hcl : (b3.getCol "Closeness") = .ok (List.replicate idx.length "0") := by
    rw [hb3, DF.getCol_setColScalar_self b2 _ _ hb2wf, hb2len, hlen]
  have hud : (b3.getCol "UDPRN") = .ok (List.replicate idx.length "00000000") := by
    rw [hb3, DF.getCol_setColScalar_ne b2 _ _ _ hb2wf (by decide), hb2,
      DF.getCol_setColScalar_ne b1 _ _ _ hb1wf (by decide), hb1,
      DF.getCol_setColScalar_self b0 _ _ hb0wf, hb0len, hlen]
  have hup : (b3.getCol "UPRN") = .ok (List.replicate idx.length "000000000000") := by
    rw [hb3, DF.getCol_setColScalar_ne b2 _ _ _ hb2wf (by decide), hb2,
      DF.getCol_setColScalar_self b1 _ _ hb1wf, hb1len, hlen]
  have hset : b3.setIndex idx = .ok { b3 with index := idx } := by
    rw [DF.setIndex, if_pos (by rw [hb3len, hlen])]
  refine ⟨{ b3 with index := idx }, ?_, rfl, by simpa [hb3len] using hlen, ?_, ?_, ?_⟩
  · unfold call_api
    rw [if_neg (by omega : ¬ 2 < t.nCols)]
    exact hset
  · exact hcl
  · exact hud
  · exact hup

/-! ### C10: immutable configuration containers -/

/-- C10: every mutation method on the immutable containers of `Config`
(`ImmutableDict.__setitem__`, `__delitem__`, `clear`, `update`, `pop`,
`popitem`, `setdefault`; `ImmutableList.__setitem__`, `__delitem__`,
`append`, `extend`, `insert`, `remove`, `pop`, `clear`) raises `TypeError`,
so no mutation ever produces new contents, and any sequence of attempted
mutations leaves the contents — in particular the `Config.api_servers`
list — exactly as constructed. -/
theorem c10_immutable_containers :
    (∀ (d : List (String × String)) (op : DictOp String String),
      ∃ msg, dictMutate d op = .error (.typeError msg))
    ∧ (∀ (l : List ApiServerM) (op : ListOp ApiServerM),
      ∃ msg, listMutate l op = .error (.typeError msg))
    ∧ (∀ (apiServers : List ApiServerM) (ops : List (ListOp ApiServerM)),
      listTryOps apiServers ops = apiServers)
    ∧ (∀ (d : List (String × String)) (ops : List (DictOp String String)),
      dictTryOps d ops = d) := by
  refine ⟨?_, ?_, ?_, ?_⟩
  · intro d op
    cases op <;> exact ⟨_, rfl⟩
  · intro l op
    cases op <;> exact ⟨_, rfl⟩
  · intro l ops
    induction ops with
    | nil => rfl
    | cons op rest ih =>
      cases op <;> simpa [listTryOps, listMutate, List.foldl_cons] using ih
  · intro d ops
    induction ops with
    | nil => rfl
    | cons op rest ih =>
      cases op <;> simpa [dictTryOps, dictMutate, List.foldl_cons] using ih

/-! ### C4: pool construction -/

/-- C4 counterexample: a pool of one verified endpoint plus one endpoint whose
startup verification does not return "Working". The claim says the bad
endpoint is dropped and construction is not fatal (the result would be the
one-server pool); in the code `ApiServer.__init__` raises, so `get_apis`
aborts with `ApiSetupError` and no pool is built at all. -/
theorem c4_counterexample :
    get_apis [⟨"A", "Working"⟩, ⟨"B", "B Not Responding - Check the host IP address"⟩] =
      .error (.apiSetupError "API Settings Error"
        "B Not Responding - Check the host IP address") := rfl

lemma get_apis_fold_ok :
    ∀ (infos : List ServerInfo) (acc : List ApiServerM),
    (∀ si ∈ infos, si.checkResult = "Working") →
    (infos.foldlM (fun acc si =>
      match mkApiServer si with
      | .error e => .error e
      | .ok s => .ok (if s.online then acc ++ [s] else acc)) acc : Except PyErr _) =
      .ok (acc ++ infos.map (fun si => ⟨si.name, true⟩)) := by
  intro infos
  induction infos with
  | nil =>
    intro acc _
    show (pure acc : Except PyErr _) = _
    simp only [List.map_nil, List.append_nil]
    rfl
  | cons si rest ih =>
    intro acc h
    have hsi : mkApiServer si = .ok ⟨si.name, true⟩ := by
      simp [mkApiServer, h si (by simp)]
    have step : (List.foldlM (fun acc si =>
        match mkApiServer si with
        | .error e => .error e
        | .ok s => .ok (if s.online then acc ++ [s] else acc)) acc (si :: rest) :
          Except PyErr _) =
        List.foldlM (fun acc si =>
          match mkApiServer si with
          | .error e => .error e
          | .ok s => .ok (if s.online then acc ++ [s] else acc)) (acc ++ [⟨si.name, true⟩])
          rest := by
      rw [List.foldlM_cons, hsi]
      rfl
    rw [step, ih (acc ++ [(⟨si.name, true⟩ : ApiServerM)]) (fun s hs => h s (by simp [hs])),
      List.map_cons]
    simp

lemma get_apis_fold_err :
    ∀ (infos : List ServerInfo) (acc : List ApiServerM) (si : ServerInfo),
    si ∈ infos → si.checkResult ≠ "Working" →
    ∃ e, (infos.foldlM (fun acc si =>
      match mkApiServer si with
      | .error e => .error e
      | .ok s => .ok (if s.online then acc ++ [s] else acc)) acc : Except PyErr _) =
      .error e := by
  intro infos
  induction infos with
  | nil =>
    intro acc si hmem
    simp at hmem
  | cons s0 rest ih =>
    intro acc si hmem hbad
    rcases List.mem_cons.mp hmem with h0 | h0
    · subst h0
      refine ⟨.apiSetupError "API Settings Error" si.checkResult, ?_⟩
      simp only [List.foldlM_cons, mkApiServer, if_neg hbad]
      rfl
    · by_cases hs0 : s0.checkResult = "Working"
      · have h1 : mkApiServer s0 = .ok ⟨s0.name, true⟩ := by simp [mkApiServer, hs0]
        obtain ⟨e, he⟩ := ih (acc ++ [⟨s0.name, true⟩]) si h0 hbad
        refine ⟨e, ?_⟩
        simp only [List.foldlM_cons, h1]
        exact he
      · refine ⟨.apiSetupError "API Settings Error" s0.checkResult, ?_⟩
        simp only [List.foldlM_cons, mkApiServer, if_neg hs0]
        rfl

/-- C4 amended: an endpoint whose startup verification returns anything other
than "Working" makes `ApiServer.__init__` raise
`ApiSetupError(['API Settings Error', init_result])`, which propagates out of
`get_apis` and aborts pool construction immediately, regardless of the other
endpoints; when every endpoint verifies as "Working" the pool holds them all
(so only "Working" verifications yield pool members), and an empty endpoint
list yields an empty pool without an error. -/
theorem c4_amended :
    (∀ infos : List ServerInfo, (∀ si ∈ infos, si.checkResult = "Working") →
      get_apis infos = .ok (infos.map (fun si => ⟨si.name, true⟩)))
    ∧ (∀ (infos : List ServerInfo) (si : ServerInfo), si ∈ infos →
        si.checkResult ≠ "Working" → ∃ e, get_apis infos = .error e)
    ∧ get_apis [] = .ok [] := by
  refine ⟨?_, ?_, rfl⟩
  · intro infos h
    unfold get_apis
    simpa using get_apis_fold_ok infos [] h
  · intro infos si hmem hbad
    unfold get_apis
    exact get_apis_fold_err infos [] si hmem hbad

/-- C4 witness: both directions of the amended statement at concrete pools. -/
theorem c4_witness :
    get_apis [⟨"A", "Working"⟩, ⟨"C", "Working"⟩] =
      .ok [⟨"A", true⟩, ⟨"C", true⟩]
    ∧ ∃ e, get_apis [⟨"B", "H2 message"⟩] = .error e := by
  constructor
  · exact c4_amended.1 [⟨"A", "Working"⟩, ⟨"C", "Working"⟩] (by decide)
  · exact c4_amended.2.1 [⟨"B", "H2 message"⟩] ⟨"B", "H2 message"⟩ (by simp) (by decide)

/-! ### C2: degraded responses with fewer than 3 columns -/

/-- C2 counterexample: a parsed response table with fewer than 3 columns (here
the empty table, which is also what a response parse failure leaves) for a
batch of m = 1 rows. The claim says the BatchResult has exactly 1 sentinel
row; in the code the degraded branch keeps the parsed row count (0), so the
final `batch.index = self.index` raises `ValueError` and no BatchResult is
produced at all. -/
theorem c2_counterexample :
    DF.empty.nCols ≤ 2
    ∧ call_api ["Organisation"] "p" [0] DF.empty = .error (.valueError "Length mismatch") :=
  ⟨by decide, rfl⟩

/-- C2 amended: with fewer than 3 columns the degraded branch keeps the parsed
row count. When the parsed table already has as many rows as the batch index
(the shape the vendor returns for an m row batch), the BatchResult has
exactly m rows, each with Closeness "0", UDPRN "00000000" and UPRN
"000000000000", and carries the batch index; when the parsed row count
differs from the batch size, `batch.index = self.index` raises `ValueError`
instead. -/
theorem c2_degraded_response :
    (∀ (outF : List String) (payload : String) (idx : List Nat) (t : DF),
      t.WF → t.nCols ≤ 2 → t.rows.length = idx.length →
      ∃ d, call_api outF payload idx t = .ok d ∧ d.index = idx ∧
        d.rows.length = idx.length ∧
        d.getCol "Closeness" = .ok (List.replicate idx.length "0") ∧
        d.getCol "UDPRN" = .ok (List.replicate idx.length "00000000") ∧
        d.getCol "UPRN" = .ok (List.replicate idx.length "000000000000"))
    ∧ (∀ (outF : List String) (payload : String) (idx : List Nat) (t : DF),
      t.nCols ≤ 2 → t.rows.length ≠ idx.length →
      call_api outF payload idx t = .error (.valueError "Length mismatch")) := by
  constructor
  · intro outF payload idx t hwf hc hlen
    exact call_api_short outF payload idx t hwf hc hlen
  · intro outF payload idx t hc hlen
    unfold call_api
    rw [if_neg (by omega : ¬ 2 < t.nCols)]
    have h3 : ((((outF.foldl (fun b f => b.setColScalar f "") t).setColScalar
        "UDPRN" "00000000").setColScalar "UPRN" "000000000000").setColScalar
        "Closeness" "0").rows.length = t.rows.length := by
      rw [DF.rows_length_setColScalar, DF.rows_length_setColScalar,
        DF.rows_length_setColScalar, blankFold_rows_length]
    have hres : ((((outF.foldl (fun b f => b.setColScalar f "") t).setColScalar
        "UDPRN" "00000000").setColScalar "UPRN" "000000000000").setColScalar
        "Closeness" "0").setIndex idx = .error (.valueError "Length mismatch") := by
      rw [DF.setIndex, if_neg (by rw [h3]; omega)]
    exact hres

/-- C2 witness: a one-row degraded response for a one-row batch. -/
theorem c2_witness :
    ∃ d, call_api ["Organisation"] "p" [7] ⟨["A"], [["v"]], [7]⟩ = .ok d ∧ d.index = [7] ∧
      d.rows.length = List.length [7] ∧
      d.getCol "Closeness" = .ok (List.replicate (List.length [7]) "0") ∧
      d.getCol "UDPRN" = .ok (List.replicate (List.length [7]) "00000000") ∧
      d.getCol "UPRN" = .ok (List.replicate (List.length [7]) "000000000000") :=
  c2_degraded_response.1 ["Organisation"] "p" [7] ⟨["A"], [["v"]], [7]⟩
    (by decide) (by decide) (by decide)

/-! ### C9: missing expected output field -/

lemma checkBatchLoop_step_err (outF : List String) (payload : String) (idx : List Nat)
    (K sid : Nat) (behavior : Nat → CallOutcome) (fuel retryCount st sl : Nat)
    (srv : List Nat) (res : DF) (t : DF) (e : PyErr)
    (hbeh : behavior retryCount = .parsed t)
    (hcall : call_api outF payload idx t = .error e) :
    checkBatchLoop outF payload idx K sid behavior (fuel + 1) retryCount st sl srv res =
      .error e := by
  simp only [checkBatchLoop, hbeh, hcall]

/-- C9 counterexample: a parsed response with more than 2 columns but no
UDPRN column, payload "addr" (4 bytes). The raised error is
`ApiSetupError(['api_key', batch, self.data])`, whose description embeds the
parsed table text and the raw payload itself: it does not contain the name of
the missing field ("UDPRN"), nor the payload size ("4"), contrary to the
claim; it does contain the payload verbatim. -/
theorem c9_counterexample :
    call_api ["UDPRN"] "addr" [0] ⟨["A", "B", "C"], [["x", "y", "z"]], [0]⟩ =
      .error (.apiSetupError "API Response Error"
        "Missing data fields: \"A B C\nx y z\"\naddr")
    ∧ strContains "Missing data fields: \"A B C\nx y z\"\naddr" "UDPRN" = false
    ∧ strContains "Missing data fields: \"A B C\nx y z\"\naddr" "4" = false
    ∧ strContains "Missing data fields: \"A B C\nx y z\"\naddr" "addr" = true :=
  ⟨rfl, by decide, by decide, by decide⟩

/-- C9 amended: when the UDPRN column is absent from a parsed response with
more than 2 columns, `call_api` raises `ApiSetupError` with error name
"API Response Error" and a description embedding the text of the parsed
table and the raw payload (not the missing field name and not the payload
size), and the error is not caught by the retry loop: `check_batch` aborts
that batch's sequence with the same error on the first attempt. -/
theorem c9_missing_field :
    ∀ (outF : List String) (payload : String) (idx : List Nat) (t : DF) (K sid : Nat),
      2 < t.nCols → t.colIdx "UDPRN" = none →
      call_api outF payload idx t =
        .error (.apiSetupError "API Response Error"
          ("Missing data fields: \"" ++ dfRepr t ++ "\"\n" ++ payload))
      ∧ check_batch outF payload idx K sid (fun _ => .parsed t) =
        .error (.apiSetupError "API Response Error"
          ("Missing data fields: \"" ++ dfRepr t ++ "\"\n" ++ payload)) := by
  intro outF payload idx t K sid hc hmiss
  have hget : t.getCol "UDPRN" = .error (.keyError "UDPRN") := by
    unfold DF.getCol
    rw [hmiss]
  have hcall : call_api outF payload idx t =
      .error (.apiSetupError "API Response Error"
        ("Missing data fields: \"" ++ dfRepr t ++ "\"\n" ++ payload)) := by
    unfold call_api
    rw [if_pos hc, hget]
    rfl
  refine ⟨hcall, ?_⟩
  exact checkBatchLoop_step_err outF payload idx K sid _ 9 0 sleepTimer0 0 [] DF.empty t _
    rfl hcall

/-- C9 witness: the amended statement at the concrete counterexample input. -/
theorem c9_witness :
    call_api ["UDPRN"] "q" [3] ⟨["A", "B", "C"], [["x", "y", "z"]], [9]⟩ =
      .error (.apiSetupError "API Response Error" "Missing data fields: \"A B C\nx y z\"\nq")
    ∧ check_batch ["UDPRN"] "q" [3] 1 0
        (fun _ => .parsed ⟨["A", "B", "C"], [["x", "y", "z"]], [9]⟩) =
      .error (.apiSetupError "API Response Error"
        "Missing data fields: \"A B C\nx y z\"\nq") :=
  c9_missing_field ["UDPRN"] "q" [3] ⟨["A", "B", "C"], [["x", "y", "z"]], [9]⟩ 1 0
    (by decide) (by decide)

/-! ### C8: identifier and score normalization -/

lemma strTakeRight_append_replicate (n : Nat) (ip : List Char) (h : ip.length ≤ n) :
    strTakeRight n ⟨List.replicate n '0' ++ ip⟩ = ⟨List.replicate (n - ip.length) '0' ++ ip⟩ := by
  unfold strTakeRight
  show String.mk _ = _
  congr 1
  simp only [List.length_append, List.length_replicate]
  rw [show n + ip.length - n = ip.length by omega,
    List.drop_append_of_le_length (by simp only [List.length_replicate]; omega),
    drop_replicate]

/-- C8: the normalization lambdas of classes.py lines 203-205. The integer
part (`r.split('.')[0]`) is kept and identifiers are left-padded with zeros
to fixed widths 8 (UDPRN) and 12 (UPRN): the result always has exactly the
fixed width, "123.0" becomes "00000123" resp. "000000000123", a value whose
integer part is at most the width is zero-padded to it, a value already at
full width is unchanged, and the Closeness score is truncated to its integer
part. -/
theorem c8_identifier_normalization :
    norm8 "123.0" = "00000123"
    ∧ norm12 "123.0" = "000000000123"
    ∧ (∀ s : String, (norm8 s).data.length = 8)
    ∧ (∀ s : String, (norm12 s).data.length = 12)
    ∧ (∀ s : String, (intPart s).data.length ≤ 8 → norm8 s = padZeros 8 (intPart s))
    ∧ (∀ s : String, (intPart s).data.length ≤ 12 → norm12 s = padZeros 12 (intPart s))
    ∧ (∀ s : String, intPart s = s → s.data.length = 8 → norm8 s = s)
    ∧ (∀ s : String, intPart s = s → s.data.length = 12 → norm12 s = s)
    ∧ ∀ s : String, normScore s = intPart s := by
  have hdata8 : ∀ s : String, ("00000000" ++ intPart s : String) =
      ⟨List.replicate 8 '0' ++ (intPart s).data⟩ := fun s => rfl
  have hdata12 : ∀ s : String, ("000000000000" ++ intPart s : String) =
      ⟨List.replicate 12 '0' ++ (intPart s).data⟩ := fun s => rfl
  have pad8 : ∀ s : String, (intPart s).data.length ≤ 8 → norm8 s = padZeros 8 (intPart s) := by
    intro s h
    unfold norm8
    rw [hdata8 s, strTakeRight_append_replicate 8 (intPart s).data h]
    rfl
  have pad12 : ∀ s : String, (intPart s).data.length ≤ 12 →
      norm12 s = padZeros 12 (intPart s) := by
    intro s h
    unfold norm12
    rw [hdata12 s, strTakeRight_append_replicate 12 (intPart s).data h]
    rfl
  have len8 : ∀ s : String, (norm8 s).data.length = 8 := by
    intro s
    show (("00000000" ++ intPart s : String).data.drop
      (("00000000" ++ intPart s : String).data.length - 8)).length = 8
    rw [List.length_drop]
    have hl : ("00000000" ++ intPart s : String).data.length =
        8 + (intPart s).data.length := by
      rw [hdata8 s]
      simp
      omega
    omega
  have len12 : ∀ s : String, (norm12 s).data.length = 12 := by
    intro s
    show (("000000000000" ++ intPart s : String).data.drop
      (("000000000000" ++ intPart s : String).data.length - 12)).length = 12
    rw [List.length_drop]
    have hl : ("000000000000" ++ intPart s : String).data.length =
        12 + (intPart s).data.length := by
      rw [hdata12 s]
      simp
      omega
    omega
  refine ⟨rfl, rfl, len8, len12, pad8, pad12, ?_, ?_, fun s => rfl⟩
  · intro s hip hlen
    have h := pad8 s (by rw [hip, hlen])
    rw [h]
    unfold padZeros
    rw [hip, hlen]
    rfl
  · intro s hip hlen
    have h := pad12 s (by rw [hip, hlen])
    rw [h]
    unfold padZeros
    rw [hip, hlen]
    rfl

/-- C8 witness: the quantified, hypothesis-bearing parts at concrete values. -/
theorem c8_witness :
    norm8 "99.5" = padZeros 8 (intPart "99.5")
    ∧ norm12 "99.5" = padZeros 12 (intPart "99.5")
    ∧ norm8 "12345678" = "12345678"
    ∧ norm12 "123456789012" = "123456789012"
    ∧ (norm8 "77").data.length = 8 :=
  ⟨c8_identifier_normalization.2.2.2.2.1 "99.5" (by decide),
   c8_identifier_normalization.2.2.2.2.2.1 "99.5" (by decide),
   c8_identifier_normalization.2.2.2.2.2.2.1 "12345678" (by decide) (by decide),
   c8_identifier_normalization.2.2.2.2.2.2.2.1 "123456789012" (by decide) (by decide),
   c8_identifier_normalization.2.2.1 "77"⟩

/-! ### C7: empty input dataset -/

/-- C7 counterexample: an empty dataset in serial mode. The claim says the
pipeline returns an empty result with zero rows; in the code
`pd.concat([], ignore_index=False)` raises `ValueError`, so the call errors
instead. -/
theorem c7_counterexample :
    check_chunk 10 1 false [] (fun _ _ => CallOutcome.connError) [] =
      .error (.valueError "No objects to concatenate") := rfl

/-- C7 amended: an empty dataset yields zero planned batches, but the
pipeline then raises `ValueError` instead of returning an empty result:
in concurrent mode `ThreadPoolExecutor(max_workers=min(0, 30))` rejects the
zero worker count, in serial mode `pd.concat` rejects the empty result
list. -/
theorem c7_empty_dataset :
    ∀ (B K : Nat) (mt : Bool) (outF : List String) (behavior : Nat → Nat → CallOutcome),
      planBatches B [] = []
      ∧ ((1 < K ∨ mt = true) → check_chunk B K mt outF behavior [] =
          .error (.valueError "max_workers must be greater than 0"))
      ∧ (¬(1 < K ∨ mt = true) → check_chunk B K mt outF behavior [] =
          .error (.valueError "No objects to concatenate")) := by
  intro B K mt outF behavior
  have hplan : planBatches B [] = [] := by
    cases B with
    | zero => rfl
    | succ n => rfl
  refine ⟨hplan, ?_, ?_⟩
  · intro hcond
    unfold check_chunk
    rw [hplan]
    unfold process_chunk
    rw [if_pos hcond]
    rfl
  · intro hcond
    unfold check_chunk
    rw [hplan]
    unfold process_chunk
    rw [if_neg hcond]
    rfl

/-- C7 witness: both modes at concrete configurations. -/
theorem c7_witness :
    planBatches 3 [] = []
    ∧ check_chunk 3 2 false [] (fun _ _ => CallOutcome.connError) [] =
        .error (.valueError "max_workers must be greater than 0")
    ∧ check_chunk 3 1 false [] (fun _ _ => CallOutcome.connError) [] =
        .error (.valueError "No objects to concatenate") :=
  ⟨(c7_empty_dataset 3 2 false [] (fun _ _ => .connError)).1,
   (c7_empty_dataset 3 2 false [] (fun _ _ => .connError)).2.1 (Or.inl (by decide)),
   (c7_empty_dataset 3 1 false [] (fun _ _ => .connError)).2.2 (by decide)⟩

/-! ### C3: retry with incremental backoff -/

lemma sum_backoff_succ (st k : Nat) :
    ∑ i ∈ Finset.range (k + 1), (st + 3 * i) =
      st + ∑ i ∈ Finset.range k, (st + 3 + 3 * i) := by
  rw [Finset.sum_range_succ']
  rw [Finset.sum_congr rfl (fun i _ => show st + 3 * (i + 1) = st + 3 + 3 * i by ring)]
  omega

lemma checkBatchLoop_success (outF : List String) (payload : String) (idx : List Nat)
    (K sid : Nat) (behavior : Nat → CallOutcome) (t d : DF) :
    ∀ (k fuel retryCount st sl : Nat) (srv : List Nat) (res : DF),
    k < fuel →
    (∀ j, j < k → behavior (retryCount + j) = .connError) →
    behavior (retryCount + k) = .parsed t →
    call_api outF payload idx t = .ok d →
    checkBatchLoop outF payload idx K sid behavior fuel retryCount st sl srv res =
      .ok ⟨d, retryCount + k + 1, sl + ∑ i ∈ Finset.range k, (st + 3 * i),
        srv ++ List.replicate (k + 1) (getServer K sid false)⟩ := by
  intro k
  induction k with
  | zero =>
    intro fuel retryCount st sl srv res hk hfail hsucc hcall
    cases fuel with
    | zero => omega
    | succ f =>
      rw [Nat.add_zero] at hsucc
      simp only [checkBatchLoop, hsucc, hcall]
      simp
  | succ k2 ih =>
    intro fuel retryCount st sl srv res hk hfail hsucc hcall
    cases fuel with
    | zero => omega
    | succ f =>
      have hb0 : behavior retryCount = .connError := by
        have h := hfail 0 (by omega)
        rwa [Nat.add_zero] at h
      simp only [checkBatchLoop, hb0]
      have ihr := ih f (retryCount + 1) (st + sleepTimerIncrement) (sl + st)
        (srv ++ [getServer K sid false]) res (by omega)
        (fun j hj => by
          have h := hfail (j + 1) (by omega)
          rwa [show retryCount + (j + 1) = retryCount + 1 + j by omega] at h)
        (by rwa [show retryCount + 1 + k2 = retryCount + (k2 + 1) by omega])
        hcall
      rw [ihr]
      have hatt : retryCount + 1 + k2 + 1 = retryCount + (k2 + 1) + 1 := by omega
      have hsl : sl + st + ∑ i ∈ Finset.range k2, (st + sleepTimerIncrement + 3 * i) =
          sl + ∑ i ∈ Finset.range (k2 + 1), (st + 3 * i) := by
        rw [sum_backoff_succ st k2]
        simp only [sleepTimerIncrement]
        omega
      have hsrv : (srv ++ [getServer K sid false]) ++
          List.replicate (k2 + 1) (getServer K sid false) =
          srv ++ List.replicate (k2 + 1 + 1) (getServer K sid false) := by
        rw [List.append_assoc]
        rfl
      rw [hatt, hsl, hsrv]

lemma checkBatchLoop_exhaust (outF : List String) (payload : String) (idx : List Nat)
    (K sid : Nat) (behavior : Nat → CallOutcome) :
    ∀ (fuel retryCount st sl : Nat) (srv : List Nat) (res : DF),
    (∀ j, behavior j = .connError) →
    checkBatchLoop outF payload idx K sid behavior fuel retryCount st sl srv res =
      .ok ⟨res, retryCount + fuel, sl + ∑ i ∈ Finset.range fuel, (st + 3 * i),
        srv ++ List.replicate fuel (getServer K sid false)⟩ := by
  intro fuel
  induction fuel with
  | zero =>
    intro retryCount st sl srv res _
    simp [checkBatchLoop]
  | succ f ih =>
    intro retryCount st sl srv res hfail
    simp only [checkBatchLoop, hfail retryCount]
    rw [ih (retryCount + 1) (st + sleepTimerIncrement) (sl + st)
      (srv ++ [getServer K sid false]) res hfail]
    have hatt : retryCount + 1 + f = retryCount + (f + 1) := by omega
    have hsl : sl + st + ∑ i ∈ Finset.range f, (st + sleepTimerIncrement + 3 * i) =
        sl + ∑ i ∈ Finset.range (f + 1), (st + 3 * i) := by
      rw [sum_backoff_succ st f]
      simp only [sleepTimerIncrement]
      omega
    have hsrv : (srv ++ [getServer K sid false]) ++
        List.replicate f (getServer K sid false) =
        srv ++ List.replicate (f + 1) (getServer K sid false) := by
      rw [List.append_assoc]
      rfl
    rw [hatt, hsl, hsrv]

/-- C3: `check_batch` retry semantics. If the endpoint raises
`ConnectionError` on the first k < 10 attempts and the (k+1)-st parses to a
result that `call_api` accepts, `check_batch` returns that result after
exactly k+1 attempts, having slept `sum_{i=0}^{k-1} (1 + 3*i)` seconds
(backoffs 1, 4, 7, ...) between attempts and having addressed the same server
`sid` on every attempt; if every attempt raises `ConnectionError`, it returns
the initial empty result after exactly 10 attempts without raising. -/
theorem c3_retry_backoff :
    (∀ (outF : List String) (payload : String) (idx : List Nat) (K sid : Nat)
      (behavior : Nat → CallOutcome) (k : Nat) (t d : DF), k < 10 →
      (∀ j, j < k → behavior j = .connError) → behavior k = .parsed t →
      call_api outF payload idx t = .ok d →
      check_batch outF payload idx K sid behavior =
        .ok ⟨d, k + 1, ∑ i ∈ Finset.range k, (1 + 3 * i), List.replicate (k + 1) sid⟩)
    ∧ (∀ (outF : List String) (payload : String) (idx : List Nat) (K sid : Nat)
      (behavior : Nat → CallOutcome), (∀ j, behavior j = .connError) →
      check_batch outF payload idx K sid behavior =
        .ok ⟨DF.empty, 10, ∑ i ∈ Finset.range 10, (1 + 3 * i), List.replicate 10 sid⟩) := by
  constructor
  · intro outF payload idx K sid behavior k t d hk hfail hsucc hcall
    have h := checkBatchLoop_success outF payload idx K sid behavior t d k 10 0 sleepTimer0 0
      [] DF.empty hk (fun j hj => by simpa using hfail j hj) (by simpa using hsucc) hcall
    rw [check_batch, h]
    simp [getServer, sleepTimer0]
  · intro outF payload idx K sid behavior hfail
    have h := checkBatchLoop_exhaust outF payload idx K sid behavior 10 0 sleepTimer0 0
      [] DF.empty hfail
    rw [check_batch, h]
    simp [getServer, sleepTimer0]

/-- C3 witness: two transient failures then success (3 attempts, 1 + 4 = 5
seconds slept, same server each time), and permanent transient failure (10
attempts, empty result, no exception). -/
theorem c3_witness :
    check_batch [] "a" [0] 1 0
      (fun j => if j < 2 then CallOutcome.connError else .parsed ⟨[], [[]], [99]⟩) =
      .ok ⟨⟨["UDPRN", "UPRN", "Closeness"], [["00000000", "000000000000", "0"]], [0]⟩,
        3, 5, [0, 0, 0]⟩
    ∧ check_batch [] "a" [0] 1 0 (fun _ => CallOutcome.connError) =
      .ok ⟨DF.empty, 10, 145, List.replicate 10 0⟩ := by
  constructor
  · have h := c3_retry_backoff.1 [] "a" [0] 1 0
      (fun j => if j < 2 then CallOutcome.connError else .parsed ⟨[], [[]], [99]⟩) 2
      ⟨[], [[]], [99]⟩
      ⟨["UDPRN", "UPRN", "Closeness"], [["00000000", "000000000000", "0"]], [0]⟩
      (by omega) (by decide) (by decide) rfl
    rw [h]
    simp [Finset.sum_range_succ]
  · have h := c3_retry_backoff.2 [] "a" [0] 1 0 (fun _ => CallOutcome.connError)
      (fun _ => rfl)
    rw [h]
    simp [Finset.sum_range_succ]

/-! ### C5: batch planning -/

lemma planBatchesGo_join_index (B : Nat) (hB : 0 < B) :
    ∀ (fuel : Nat) (rows : List (Nat × String)), rows.length ≤ fuel →
    ((planBatchesGo B fuel rows).map (fun b => b.index)).flatten = rows.map Prod.fst := by
  intro fuel
  induction fuel with
  | zero =>
    intro rows h
    have hnil : rows = [] := List.eq_nil_of_length_eq_zero (by omega)
    subst hnil
    rfl
  | succ f ih =>
    intro rows h
    cases rows with
    | nil => rfl
    | cons r rest =>
      simp only [planBatchesGo, List.map_cons, List.flatten_cons]
      rw [ih ((r :: rest).drop B) (by simp only [List.length_drop]; simp at h ⊢; omega)]
      show ((r :: rest).take B).map Prod.fst ++ ((r :: rest).drop B).map Prod.fst = _
      rw [← List.map_append, List.take_append_drop]
      simp

lemma planBatchesGo_length (B : Nat) (hB : 0 < B) :
    ∀ (fuel : Nat) (rows : List (Nat × String)), rows.length ≤ fuel →
    (planBatchesGo B fuel rows).length = (rows.length + B - 1) / B := by
  intro fuel
  induction fuel with
  | zero =>
    intro rows h
    have hnil : rows = [] := List.eq_nil_of_length_eq_zero (by omega)
    subst hnil
    rw [show planBatchesGo B 0 ([] : List (Nat × String)) = [] from rfl]
    simp only [List.length_nil]
    exact (Nat.div_eq_of_lt (by omega)).symm
  | succ f ih =>
    intro rows h
    cases rows with
    | nil =>
      rw [show planBatchesGo B (f + 1) ([] : List (Nat × String)) = [] from rfl]
      simp only [List.length_nil]
      exact (Nat.div_eq_of_lt (by omega)).symm
    | cons r rest =>
      simp only [planBatchesGo, List.length_cons]
      rw [ih ((r :: rest).drop B) (by simp only [List.length_drop]; simp at h ⊢; omega),
        List.length_drop]
      simp only [List.length_cons]
      set L := rest.length + 1 with hL
      have hRHS : (L + B - 1) / B = (L - 1) / B + 1 := by
        rw [show L + B - 1 = (L - 1) + B by omega]
        exact Nat.add_div_right _ hB
      rw [hRHS]
      rcases le_or_lt L B with hLB | hLB
      · rw [show L - B = 0 by omega, show (0 : Nat) + B - 1 = B - 1 by omega,
          Nat.div_eq_of_lt (by omega), Nat.div_eq_of_lt (by omega)]
      · rw [show L - B + B - 1 = L - 1 by omega]

lemma planBatchesGo_getD (B : Nat) (hB : 0 < B) :
    ∀ (i fuel : Nat) (rows : List (Nat × String)), rows.length ≤ fuel →
      i * B < rows.length →
      (planBatchesGo B fuel rows).getD i ⟨"", []⟩ = mkBatch ((rows.drop (i * B)).take B) := by
  intro i
  induction i with
  | zero =>
    intro fuel rows hf hlt
    cases fuel with
    | zero => omega
    | succ f =>
      cases rows with
      | nil => simp at hlt
      | cons r rest =>
        simp only [Nat.zero_mul, List.drop_zero, planBatchesGo, List.getD_cons_zero]
  | succ i2 ih =>
    intro fuel rows hf hlt
    cases fuel with
    | zero => omega
    | succ f =>
      cases rows with
      | nil => simp at hlt
      | cons r rest =>
        rw [Nat.succ_mul] at hlt
        simp only [planBatchesGo, List.getD_cons_succ]
        rw [ih f ((r :: rest).drop B)
          (by simp only [List.length_drop]; simp at hf ⊢; omega)
          (by simp only [List.length_drop]; simp at hlt ⊢; omega),
          List.drop_drop, show B + i2 * B = (i2 + 1) * B by ring]

lemma planBatchesGo_mem_size (B : Nat) (hB : 0 < B) :
    ∀ (fuel : Nat) (rows : List (Nat × String)) (b : Batch), rows.length ≤ fuel →
      b ∈ planBatchesGo B fuel rows → b.index.length ≤ B ∧ 0 < b.index.length := by
  intro fuel
  induction fuel with
  | zero =>
    intro rows b h hmem
    have hnil : rows = [] := List.eq_nil_of_length_eq_zero (by omega)
    subst hnil
    simp [planBatchesGo] at hmem
  | succ f ih =>
    intro rows b h hmem
    cases rows with
    | nil => simp [planBatchesGo] at hmem
    | cons r rest =>
      simp only [planBatchesGo] at hmem
      rcases List.mem_cons.mp hmem with hb | hb
      · subst hb
        show (((r :: rest).take B).map Prod.fst).length ≤ B ∧
          0 < (((r :: rest).take B).map Prod.fst).length
        simp only [List.length_map, List.length_take, List.length_cons]
        omega
      · exact ih ((r :: rest).drop B) b
          (by simp only [List.length_drop]; simp at h ⊢; omega) hb

/-- C5: for batch size B > 0 the planning loop produces exactly
ceil(N / B) = (N + B - 1) / B batches; batch i is exactly the contiguous
slice `rows[i*B : i*B + B]` turned into a payload with its original index
labels; every batch has between 1 and B rows; and concatenating all batches'
index lists in batch order reproduces the original row order. -/
theorem c5_batch_planning :
    ∀ (B : Nat) (rows : List (Nat × String)), 0 < B →
      (planBatches B rows).length = (rows.length + B - 1) / B
      ∧ ((planBatches B rows).map (fun b => b.index)).flatten = rows.map Prod.fst
      ∧ (∀ i, i * B < rows.length →
          (planBatches B rows).getD i ⟨"", []⟩ = mkBatch ((rows.drop (i * B)).take B))
      ∧ (∀ b ∈ planBatches B rows, b.index.length ≤ B ∧ 0 < b.index.length) := by
  intro B rows hB
  unfold planBatches
  rw [if_neg (by omega)]
  exact ⟨planBatchesGo_length B hB rows.length rows le_rfl,
    planBatchesGo_join_index B hB rows.length rows le_rfl,
    fun i hi => planBatchesGo_getD B hB i rows.length rows le_rfl hi,
    fun b hb => planBatchesGo_mem_size B hB rows.length rows b le_rfl hb⟩

/-- C5 witness: 5 rows, batch size 2. -/
theorem c5_witness :
    (planBatches 2 [(0, "a"), (1, "b"), (2, "c"), (3, "d"), (4, "e")]).length =
      (5 + 2 - 1) / 2
    ∧ ((planBatches 2 [(0, "a"), (1, "b"), (2, "c"), (3, "d"), (4, "e")]).map
        (fun b => b.index)).flatten =
        [(0, "a"), (1, "b"), (2, "c"), (3, "d"), (4, "e")].map Prod.fst
    ∧ (planBatches 2 [(0, "a"), (1, "b"), (2, "c"), (3, "d"), (4, "e")]).getD 2 ⟨"", []⟩ =
        mkBatch (([(0, "a"), (1, "b"), (2, "c"), (3, "d"), (4, "e")].drop (2 * 2)).take 2) :=
  ⟨(c5_batch_planning 2 [(0, "a"), (1, "b"), (2, "c"), (3, "d"), (4, "e")] (by decide)).1,
   (c5_batch_planning 2 [(0, "a"), (1, "b"), (2, "c"), (3, "d"), (4, "e")] (by decide)).2.1,
   (c5_batch_planning 2 [(0, "a"), (1, "b"), (2, "c"), (3, "d"), (4, "e")]
     (by decide)).2.2.1 2 (by decide)⟩

/-! ### C6: dispatch (round robin and serial) -/

lemma rrAssign_map_fst {α : Type} (K : Nat) (hK : 0 < K) :
    ∀ (l : List α) (sId : Nat), (rrAssign K sId l).map Prod.fst = l := by
  intro l
  induction l with
  | nil => intro sId; rfl
  | cons b rest ih =>
    intro sId
    simp only [rrAssign, if_neg (show ¬ K = 0 by omega)]
    by_cases h : sId < K
    · rw [if_pos h]
      simp [ih]
    · rw [if_neg h]
      simp [ih]

lemma rrAssign_map_snd {α : Type} (K : Nat) (hK : 0 < K) :
    ∀ (l : List α) (sId : Nat), sId ≤ K →
      (rrAssign K sId l).map Prod.snd =
        (List.range l.length).map (fun i => (sId + i) % K) := by
  intro l
  induction l with
  | nil => intro sId _; rfl
  | cons b rest ih =>
    intro sId hsId
    simp only [rrAssign, if_neg (show ¬ K = 0 by omega)]
    by_cases h : sId < K
    · rw [if_pos h]
      simp only [List.map_cons, List.length_cons, List.range_succ_eq_map, List.map_map]
      rw [ih (sId + 1) (by omega)]
      have hfun : ((fun i => (sId + i) % K) ∘ Nat.succ) = (fun i => (sId + 1 + i) % K) := by
        funext i
        simp only [Function.comp_apply]
        congr 1
        omega
      rw [hfun]
      simp [Nat.mod_eq_of_lt h]
    · have hKs : sId = K := by omega
      rw [if_neg h]
      simp only [List.map_cons, List.length_cons, List.range_succ_eq_map, List.map_map]
      rw [ih 1 (by omega)]
      have hfun : ((fun i => (sId + i) % K) ∘ Nat.succ) = (fun i => (1 + i) % K) := by
        funext i
        simp only [Function.comp_apply, hKs]
        rw [show K + (i + 1) = (1 + i) + K by omega, Nat.add_mod_right]
      rw [hfun]
      simp [hKs]

lemma rrAssign_length {α : Type} (K : Nat) (hK : 0 < K) (l : List α) (sId : Nat) :
    (rrAssign K sId l).length = l.length := by
  have h := congrArg List.length (rrAssign_map_fst K hK l sId)
  simpa using h

/-- C6: batch-to-endpoint assignment. The `proc_list` built by the concurrent
branch pairs batch i with server id i mod K (so server N receives every Kth
batch) while keeping the batches in planning order; a successful concurrent
run records a worker pool bound of exactly min(batchCount, 30) and those
round robin server ids; a successful run of the serial branch (pool not
larger than one, flag off) processes the batches strictly in planning order,
each against server 0, with no worker pool. -/
theorem c6_dispatch :
    (∀ (K : Nat) (batches : List Batch), 0 < K →
      (dispatchPlan K batches).map Prod.snd =
        (List.range batches.length).map (fun i => i % K)
      ∧ (dispatchPlan K batches).map Prod.fst = batches.enum)
    ∧ (∀ (K : Nat) (mt : Bool) (outF : List String) (behavior : Nat → Nat → CallOutcome)
        (batches : List Batch) (out : PCOut), 0 < K → (1 < K ∨ mt = true) →
        process_chunk K mt outF behavior batches = .ok out →
        out.workerBound2 = some (min batches.length 30)
        ∧ out.calls.map Prod.snd = (List.range batches.length).map (fun i => i % K))
    ∧ (∀ (K : Nat) (outF : List String) (behavior : Nat → Nat → CallOutcome)
        (batches : List Batch) (out : PCOut), ¬ 1 < K →
        process_chunk K false outF behavior batches = .ok out →
        out.calls = (List.range batches.length).map (fun i => (i, 0))
        ∧ out.workerBound2 = none) := by
  have hplan : ∀ (K : Nat) (batches : List Batch), 0 < K →
      (dispatchPlan K batches).map Prod.snd =
        (List.range batches.length).map (fun i => i % K)
      ∧ (dispatchPlan K batches).map Prod.fst = batches.enum := by
    intro K batches hK
    constructor
    · rw [dispatchPlan, rrAssign_map_snd K hK batches.enum 0 (by omega), List.enum_length]
      congr 1
      funext i
      rw [Nat.zero_add]
    · rw [dispatchPlan, rrAssign_map_fst K hK batches.enum 0]
  refine ⟨hplan, ?_, ?_⟩
  · intro K mt outF behavior batches out hK hcond hok
    unfold process_chunk at hok
    rw [if_pos hcond] at hok
    by_cases hz : batches.length = 0
    · rw [if_pos hz] at hok
      simp at hok
    · rw [if_neg hz] at hok
      cases hm : (dispatchPlan K batches).mapM (fun u =>
          check_batch outF u.1.2.payload u.1.2.index K u.2 (behavior u.1.1)) with
      | error e =>
        rw [hm] at hok
        simp at hok
      | ok outs =>
        rw [hm] at hok
        dsimp only at hok
        cases hc : pdConcat (outs.map (fun o => o.df)) with
        | error e =>
          rw [hc] at hok
          simp at hok
        | ok df =>
          rw [hc] at hok
          simp only [Except.ok.injEq] at hok
          subst hok
          refine ⟨rfl, ?_⟩
          show ((dispatchPlan K batches).map (fun u => (u.1.1, u.2))).map Prod.snd = _
          rw [List.map_map]
          rw [show (Prod.snd ∘ fun u : (Nat × Batch) × Nat => (u.1.1, u.2)) =
            (Prod.snd : (Nat × Batch) × Nat → Nat) from rfl]
          exact (hplan K batches hK).1
  · intro K outF behavior batches out hK hok
    unfold process_chunk at hok
    rw [if_neg (by simp [hK])] at hok
    cases hm : batches.enum.mapM (fun u =>
        check_batch outF u.2.payload u.2.index K 0 (behavior u.1)) with
    | error e =>
      rw [hm] at hok
      simp at hok
    | ok outs =>
      rw [hm] at hok
      dsimp only at hok
      cases hc : pdConcat (outs.map (fun o => o.df)) with
      | error e =>
        rw [hc] at hok
        simp at hok
      | ok df =>
        rw [hc] at hok
        simp only [Except.ok.injEq] at hok
        subst hok
        refine ⟨?_, rfl⟩
        show batches.enum.map (fun u => (u.1, 0)) = _
        rw [show (fun u : Nat × Batch => (u.1, 0)) =
          ((fun i => (i, 0)) ∘ (Prod.fst : Nat × Batch → Nat)) from rfl,
          ← List.map_map, List.enum_map_fst]

/-- C6 witness: three batches over two endpoints get server ids 0, 1, 0 in
planning order; a successful concurrent run of two batches records worker
bound min(2, 30) and ids 0, 1; a successful serial run records planning
order against server 0 with no pool. -/
theorem c6_witness :
    ((dispatchPlan 2 [⟨"x", [5]⟩, ⟨"y", [6]⟩, ⟨"z", [7]⟩]).map Prod.snd =
      (List.range 3).map (fun i => i % 2)
     ∧ (dispatchPlan 2 [⟨"x", [5]⟩, ⟨"y", [6]⟩, ⟨"z", [7]⟩]).map Prod.fst =
      ([⟨"x", [5]⟩, ⟨"y", [6]⟩, ⟨"z", [7]⟩] : List Batch).enum)
    ∧ ((some (min 2 30) : Option Nat) = some (min 2 30)
     ∧ ([(0, 0), (1, 1)] : List (Nat × Nat)).map Prod.snd =
        (List.range 2).map (fun i => i % 2))
    ∧ (([(0, 0)] : List (Nat × Nat)) = (List.range 1).map (fun i => (i, 0))
     ∧ (none : Option Nat) = none) := by
  refine ⟨c6_dispatch.1 2 [⟨"x", [5]⟩, ⟨"y", [6]⟩, ⟨"z", [7]⟩] (by omega), ?_, ?_⟩
  · exact c6_dispatch.2.1 2 false [] (fun _ _ => .parsed ⟨[], [[]], [9]⟩)
      [⟨"x", [5]⟩, ⟨"y", [6]⟩]
      ⟨⟨["UDPRN", "UPRN", "Closeness"],
        [["00000000", "000000000000", "0"], ["00000000", "000000000000", "0"]], [5, 6]⟩,
        [(0, 0), (1, 1)], some 2⟩
      (by omega) (Or.inl (by omega)) rfl
  · exact c6_dispatch.2.2 1 [] (fun _ _ => .parsed ⟨[], [[]], [9]⟩) [⟨"x", [5]⟩]
      ⟨⟨["UDPRN", "UPRN", "Closeness"], [["00000000", "000000000000", "0"]], [5]⟩,
        [(0, 0)], none⟩
      (by omega) rfl

/-! ### C1: index preservation through the pipeline -/

lemma mapM_ok_of_forall {α β : Type} (f : α → Except PyErr β) (P : α → β → Prop) :
    ∀ (l : List α), (∀ x ∈ l, ∃ y, f x = .ok y ∧ P x y) →
      ∃ ys, l.mapM f = .ok ys ∧ List.Forall₂ P l ys := by
  intro l
  induction l with
  | nil =>
    intro _
    exact ⟨[], rfl, List.Forall₂.nil⟩
  | cons a rest ih =>
    intro h
    obtain ⟨y, hy, hP⟩ := h a (by simp)
    obtain ⟨ys, hys, hPs⟩ := ih (fun x hx => h x (by simp [hx]))
    refine ⟨y :: ys, ?_, List.Forall₂.cons hP hPs⟩
    rw [List.mapM_cons, hy, hys]
    rfl

lemma forall2_map_eq {α β γ : Type} {P : α → β → Prop} (g : β → γ) (h2 : α → γ)
    (hPg : ∀ a b, P a b → g b = h2 a) :
    ∀ {l : List α} {ys : List β}, List.Forall₂ P l ys → ys.map g = l.map h2 := by
  intro l ys hf
  induction hf with
  | nil => rfl
  | cons h1 _ ih =>
    simp only [List.map_cons, ih]
    rw [hPg _ _ h1]

lemma pdConcat_ok_index (dfs : List DF) (hne : dfs ≠ []) :
    ∃ d, pdConcat dfs = .ok d ∧ d.index = (dfs.map (fun x => x.index)).flatten := by
  cases dfs with
  | nil => exact absurd rfl hne
  | cons a rest => exact ⟨_, rfl, rfl⟩

lemma planBatches_ne_nil (B : Nat) (rows : List (Nat × String)) (hB : 0 < B)
    (hrows : rows ≠ []) : planBatches B rows ≠ [] := by
  unfold planBatches
  rw [if_neg (by omega)]
  cases rows with
  | nil => exact absurd rfl hrows
  | cons r rest =>
    simp only [List.length_cons, planBatchesGo]
    exact List.cons_ne_nil _ _

/-- Both branches of `process_chunk`: when every batch's `check_batch` call
succeeds with a frame carrying that batch's index labels, the concatenated
result carries exactly the concatenation of all batches' index lists. -/
lemma process_chunk_ok_index (K : Nat) (mt : Bool) (outF : List String)
    (behavior : Nat → Nat → CallOutcome) (batches : List Batch)
    (hK : 0 < K) (hbne : batches ≠ [])
    (hcb : ∀ (sid : Nat) (u : Nat × Batch), u ∈ batches.enum →
      ∃ y, check_batch outF u.2.payload u.2.index K sid (behavior u.1) = .ok y ∧
        y.df.index = u.2.index) :
    ∃ out, process_chunk K mt outF behavior batches = .ok out ∧
      out.df.index = (batches.map (fun b => b.index)).flatten := by
  have hlenb : batches.length ≠ 0 := by
    intro h0
    exact hbne (List.eq_nil_of_length_eq_zero h0)
  unfold process_chunk
  by_cases hcond : 1 < K ∨ mt = true
  · rw [if_pos hcond, if_neg hlenb]
    have hmem : ∀ u ∈ dispatchPlan K batches, u.1 ∈ batches.enum := by
      intro u hu
      have h := List.mem_map_of_mem Prod.fst hu
      rwa [dispatchPlan, rrAssign_map_fst K hK batches.enum 0] at h
    obtain ⟨outs, houts, hF2⟩ := mapM_ok_of_forall
      (fun u => check_batch outF u.1.2.payload u.1.2.index K u.2 (behavior u.1.1))
      (fun u y => y.df.index = u.1.2.index)
      (dispatchPlan K batches)
      (fun u hu => hcb u.2 u.1 (hmem u hu))
    rw [houts]
    dsimp only
    have houtsne : outs.map (fun o => o.df) ≠ [] := by
      intro hnil
      have h0 : outs.length = 0 := by
        simpa using congrArg List.length hnil
      have hlen := hF2.length_eq
      rw [dispatchPlan, rrAssign_length K hK batches.enum 0, List.enum_length] at hlen
      omega
    obtain ⟨dcat, hd, hidx⟩ := pdConcat_ok_index (outs.map (fun o => o.df)) houtsne
    rw [hd]
    refine ⟨_, rfl, ?_⟩
    show dcat.index = _
    rw [hidx, List.map_map]
    have hmaps : outs.map (fun o => o.df.index) =
        (dispatchPlan K batches).map (fun u => u.1.2.index) :=
      forall2_map_eq (fun o : CBOut => o.df.index)
        (fun u : (Nat × Batch) × Nat => u.1.2.index) (fun u y hy => hy) hF2
    rw [show ((fun x : DF => x.index) ∘ fun o : CBOut => o.df) =
      (fun o : CBOut => o.df.index) from rfl, hmaps,
      show (fun u : (Nat × Batch) × Nat => u.1.2.index) =
        ((fun q : Nat × Batch => q.2.index) ∘ Prod.fst) from rfl,
      ← List.map_map, dispatchPlan, rrAssign_map_fst K hK batches.enum 0,
      show (fun q : Nat × Batch => q.2.index) =
        ((fun b : Batch => b.index) ∘ Prod.snd) from rfl,
      ← List.map_map, List.enum_map_snd]
  · rw [if_neg hcond]
    obtain ⟨outs, houts, hF2⟩ := mapM_ok_of_forall
      (fun u => check_batch outF u.2.payload u.2.index K 0 (behavior u.1))
      (fun u y => y.df.index = u.2.index)
      batches.enum
      (fun u hu => hcb 0 u hu)
    rw [houts]
    dsimp only
    have houtsne : outs.map (fun o => o.df) ≠ [] := by
      intro hnil
      have h0 : outs.length = 0 := by
        simpa using congrArg List.length hnil
      have hlen := hF2.length_eq
      rw [List.enum_length] at hlen
      omega
    obtain ⟨dcat, hd, hidx⟩ := pdConcat_ok_index (outs.map (fun o => o.df)) houtsne
    rw [hd]
    refine ⟨_, rfl, ?_⟩
    show dcat.index = _
    rw [hidx, List.map_map]
    have hmaps : outs.map (fun o => o.df.index) =
        batches.enum.map (fun u => u.2.index) :=
      forall2_map_eq (fun o : CBOut => o.df.index)
        (fun u : Nat × Batch => u.2.index) (fun u y hy => hy) hF2
    rw [show ((fun x : DF => x.index) ∘ fun o : CBOut => o.df) =
      (fun o : CBOut => o.df.index) from rfl, hmaps,
      show (fun q : Nat × Batch => q.2.index) =
        ((fun b : Batch => b.index) ∘ Prod.snd) from rfl,
      ← List.map_map, List.enum_map_snd]

/-- C1 counterexample: one row, one batch, one endpoint, serial mode, and an
endpoint that always raises `ConnectionError`. The batch's retry sequence
exhausts all 10 attempts, `check_batch` returns the initial empty DataFrame,
and the aggregated output has no rows: the input index 0 is omitted from the
output, so the index sets differ and the output row count is 0, not 1. -/
theorem c1_counterexample :
    check_chunk 1 1 false [] (fun _ _ => CallOutcome.connError) [(0, "a")] =
      .ok ⟨⟨[], [], []⟩, [(0, 0)], none⟩
    ∧ [(0, "a")].map Prod.fst = [0]
    ∧ ([] : List Nat) ≠ [0] :=
  ⟨rfl, rfl, by decide⟩

/-- C1 amended: when every batch's retry sequence reaches, within its 10
attempts, a parsed response that `call_api` accepts (in particular one whose
row count matches the batch), the aggregated output's index labels are
exactly the input's original indices in order, each exactly once, and the
output row labels count equals the input row count; this holds in both the
round robin and the serial branch. A batch that exhausts all attempts
instead contributes zero rows and its indices are silently dropped. -/
theorem c1_index_preservation :
    ∀ (B K : Nat) (mt : Bool) (outF : List String) (behavior : Nat → Nat → CallOutcome)
      (rows : List (Nat × String)), 0 < B → 0 < K → rows ≠ [] →
      (∀ u ∈ (planBatches B rows).enum, ∃ k t d, k < 10 ∧
        (∀ j, j < k → behavior u.1 j = CallOutcome.connError) ∧
        behavior u.1 k = .parsed t ∧
        call_api outF u.2.payload u.2.index t = .ok d) →
      ∃ out, check_chunk B K mt outF behavior rows = .ok out ∧
        out.df.index = rows.map Prod.fst := by
  intro B K mt outF behavior rows hB hK hrows hok
  have hflat : ((planBatches B rows).map (fun b => b.index)).flatten = rows.map Prod.fst := by
    unfold planBatches
    rw [if_neg (by omega)]
    exact planBatchesGo_join_index B hB rows.length rows le_rfl
  have hcb : ∀ (sid : Nat) (u : Nat × Batch), u ∈ (planBatches B rows).enum →
      ∃ y, check_batch outF u.2.payload u.2.index K sid (behavior u.1) = .ok y ∧
        y.df.index = u.2.index := by
    intro sid u hu
    obtain ⟨k, t, d, hk, hfail, hsucc, hcall⟩ := hok u hu
    have h := checkBatchLoop_success outF u.2.payload u.2.index K sid (behavior u.1) t d k 10
      0 sleepTimer0 0 [] DF.empty hk (fun j hj => by simpa using hfail j hj)
      (by simpa using hsucc) hcall
    exact ⟨_, h, call_api_ok_index _ _ _ _ _ hcall⟩
  obtain ⟨out, hout, hidx⟩ := process_chunk_ok_index K mt outF behavior
    (planBatches B rows) hK (planBatches_ne_nil B rows hB hrows) hcb
  exact ⟨out, hout, by rw [hidx, hflat]⟩

/-- C1 witness: two rows, batch size 1, single endpoint, serial mode, every
batch succeeding on its first attempt; the output carries indices 0, 1. -/
theorem c1_witness :
    ∃ out, check_chunk 1 1 false []
        (fun _ _ => CallOutcome.parsed ⟨[], [[]], [9]⟩) [(0, "a"), (1, "b")] = .ok out ∧
      out.df.index = [(0, "a"), (1, "b")].map Prod.fst := by
  refine c1_index_preservation 1 1 false [] (fun _ _ => CallOutcome.parsed ⟨[], [[]], [9]⟩)
    [(0, "a"), (1, "b")] (by omega) (by omega) (by decide) ?_
  intro u hu
  have hcases : u = (0, ⟨"a", [0]⟩) ∨ u = (1, ⟨"b", [1]⟩) := by
    have : (planBatches 1 [(0, "a"), (1, "b")]).enum =
        [(0, ⟨"a", [0]⟩), (1, ⟨"b", [1]⟩)] := rfl
    rw [this] at hu
    simpa using hu
  rcases hcases with hu0 | hu0 <;> subst hu0
  · exact ⟨0, ⟨[], [[]], [9]⟩,
      ⟨["UDPRN", "UPRN", "Closeness"], [["00000000", "000000000000", "0"]], [0]⟩,
      by omega, fun j hj => absurd hj (by omega), rfl, rfl⟩
  · exact ⟨0, ⟨[], [[]], [9]⟩,
      ⟨["UDPRN", "UPRN", "Closeness"], [["00000000", "000000000000", "0"]], [1]⟩,
      by omega, fun j hj => absurd hj (by omega), rfl, rfl⟩

end RefinerApi
